import Mathlib

/-!
Verification of the order-lifecycle state machine and the risk/position
engine of the FINM32500-A9-TS1 trading pipeline.

The Lean definitions below are a shallow embedding of the Python sources:

* `OrderState`, `Order`, `Order.transition`  — src/order.py
* `RiskEngine` (`check`, `update_position`, `get_position`) — src/risk_engine.py
* `SinkEvent`, `log_risk_check`              — src/logger.py

Python conventions used in the embedding:

* the position dictionary `self.positions` is an association list
  `List (String × Int)`; `dict.get(sym, 0)` is `ledgerGet`,
  `dict[sym] = v` is `ledgerSet` (replace the existing binding or append);
* a `raise` is `Except.error`; the exception is raised before any field
  assignment, so the caller observes the object unchanged on error
  (`Order.transitionOrKeep`, `RiskEngine.update_position_attempt`);
* integer quantities and positions are unbounded `Int`, as in Python;
* `print(...)` writes to the console, not to the `Logger` event sink;
  console output is not part of the event-sink channel modelled here.
-/

namespace TradingCore

/-- States of the order lifecycle (class OrderState in src/order.py). -/
inductive OrderState where
  | NEW
  | ACKED
  | FILLED
  | CANCELED
  | REJECTED
deriving DecidableEq, Repr

/-- An order (class Order in src/order.py): symbol, quantity, side string,
and current lifecycle state.  The `use_logger` flag of the source only
toggles console/sink logging and carries no state relevant to the claims. -/
structure Order where
  symbol : String
  qty : Int
  side : String
  state : OrderState
deriving DecidableEq, Repr

/-- Order construction (Order.__init__): stores the three arguments
unchanged and sets the state to NEW.  The source performs no validation. -/
def mkOrder (symbol : String) (qty : Int) (side : String) : Order :=
  { symbol := symbol, qty := qty, side := side, state := OrderState.NEW }

/-- Error raised by Order.transition (the ValueError "Bad transition:
current -> requested" of the source, which identifies both states). -/
inductive OrderError where
  | invalidTransition (current requested : OrderState)
deriving DecidableEq, Repr

/-- The allowed-transition table built in Order.transition: NEW may go to
ACKED or REJECTED, ACKED to FILLED or CANCELED, and the three terminal
states have no outgoing transitions. -/
def allowedTargets : OrderState → List OrderState
  | OrderState.NEW => [OrderState.ACKED, OrderState.REJECTED]
  | OrderState.ACKED => [OrderState.FILLED, OrderState.CANCELED]
  | OrderState.FILLED => []
  | OrderState.CANCELED => []
  | OrderState.REJECTED => []

/-- Order.transition: if the requested state is in the allowed set for the
current state, the state is replaced; otherwise a ValueError naming the
current and requested states is raised (no assignment happens first). -/
def Order.transition (o : Order) (new_state : OrderState) : Except OrderError Order :=
  if new_state ∈ allowedTargets o.state then
    Except.ok { o with state := new_state }
  else
    Except.error (OrderError.invalidTransition o.state new_state)

/-- State of the order as observed by a caller that catches the exception:
the source raises before any mutation, so on error the order is unchanged. -/
def Order.transitionOrKeep (o : Order) (new_state : OrderState) : Order :=
  match o.transition new_state with
  | Except.ok o2 => o2
  | Except.error _ => o

/-- Position ledger: the `self.positions` dictionary, symbol to net position. -/
abbrev Ledger := List (String × Int)

/-- Dictionary read with default: `self.positions.get(sym, 0)`. -/
def ledgerGet : Ledger → String → Int
  | [], _ => 0
  | (k, v) :: rest, s => if k = s then v else ledgerGet rest s

/-- Dictionary write: `self.positions[sym] = v` (replace or insert). -/
def ledgerSet : Ledger → String → Int → Ledger
  | [], s, v => [(s, v)]
  | (k, w) :: rest, s, v =>
      if k = s then (s, v) :: rest else (k, w) :: ledgerSet rest s v

/-- The risk engine (class RiskEngine in src/risk_engine.py): the two
limits fixed at construction and the mutable position ledger. -/
structure RiskEngine where
  max_order_size : Int
  max_position : Int
  positions : Ledger
deriving DecidableEq, Repr

/-- Side classification performed inside RiskEngine.check:
`side in ['1', 'BUY', 'Buy']` means buy (`some true`),
`side in ['2', 'SELL', 'Sell']` means sell (`some false`),
anything else is unrecognized (`none`). -/
def checkSideSign (side : String) : Option Bool :=
  if side = "1" ∨ side = "BUY" ∨ side = "Buy" then some true
  else if side = "2" ∨ side = "SELL" ∨ side = "Sell" then some false
  else none

/-- Side classification performed inside RiskEngine.update_position; the
source repeats the same two membership tests as in check. -/
def updateSideSign (side : String) : Option Bool :=
  if side = "1" ∨ side = "BUY" ∨ side = "Buy" then some true
  else if side = "2" ∨ side = "SELL" ∨ side = "Sell" then some false
  else none

/-- RiskEngine.check: reject when the quantity exceeds max_order_size,
reject on an unrecognized side, reject when the hypothetical position
(current ledger value plus signed quantity) exceeds max_position in
absolute value; approve otherwise.  The rejection branches print to the
console; the function reads but never writes `self.positions`. -/
def RiskEngine.check (r : RiskEngine) (o : Order) : Bool :=
  if o.qty > r.max_order_size then
    false
  else
    let current_position := ledgerGet r.positions o.symbol
    match checkSideSign o.side with
    | some isBuy =>
        let position_change := if isBuy then o.qty else -o.qty
        let new_position := current_position + position_change
        if |new_position| > r.max_position then false else true
    | none => false

/-- Error raised by RiskEngine.update_position (the ValueError
"Invalid side ... in update_position" of the source). -/
inductive RiskError where
  | invalidSide (side : String)
deriving DecidableEq, Repr

/-- RiskEngine.update_position: recompute the signed quantity as in check,
raise on an unrecognized side (before touching the ledger), otherwise
store current position plus signed quantity back into the ledger. -/
def RiskEngine.update_position (r : RiskEngine) (o : Order) : Except RiskError RiskEngine :=
  let current_position := ledgerGet r.positions o.symbol
  match updateSideSign o.side with
  | some isBuy =>
      let position_change := if isBuy then o.qty else -o.qty
      let new_position := current_position + position_change
      Except.ok { r with positions := ledgerSet r.positions o.symbol new_position }
  | none => Except.error (RiskError.invalidSide o.side)

/-- Engine as observed by a caller that catches the exception: the source
raises before the ledger assignment, so on error the engine is unchanged. -/
def RiskEngine.update_position_attempt (r : RiskEngine) (o : Order) : RiskEngine :=
  match r.update_position o with
  | Except.ok r2 => r2
  | Except.error _ => r

/-- RiskEngine.get_position: ledger value, or 0 for an unseen symbol. -/
def RiskEngine.get_position (r : RiskEngine) (sym : String) : Int :=
  ledgerGet r.positions sym

/-- One `risk.check(order)` call viewed as a state transformer: the source
assigns nothing to `self`, so the engine after the call is the engine
before it; only the boolean is produced. -/
def RiskEngine.checkCall (r : RiskEngine) (o : Order) : Bool × RiskEngine :=
  (r.check o, r)

/-- A sequence of check calls with no intervening update_position. -/
def runChecks (r : RiskEngine) : List Order → RiskEngine
  | [] => r
  | o :: rest => runChecks (r.checkCall o).2 rest

/-- A sequence of update_position calls; the first exception aborts the
sequence, as an uncaught Python exception would. -/
def applyFills (r : RiskEngine) : List Order → Except RiskError RiskEngine
  | [] => Except.ok r
  | o :: rest =>
      match r.update_position o with
      | Except.ok r2 => applyFills r2 rest
      | Except.error e => Except.error e

/-- Signed quantity of a fill: positive for a buy, negative for a sell
(0 only on the unrecognized-side branch, which update_position rejects). -/
def signedQty (o : Order) : Int :=
  match updateSideSign o.side with
  | some true => o.qty
  | some false => -o.qty
  | none => 0

/-- Concrete engine used by the witnesses: the defaults of the source,
max_order_size 1000, max_position 2000, empty ledger. -/
def engA : RiskEngine :=
  { max_order_size := 1000, max_position := 2000, positions := [] }

/-- Buy 500 AAPL with the legacy numeric side code. -/
def ordA : Order := mkOrder "AAPL" 500 "1"

/-- Order whose quantity exceeds engA's max_order_size. -/
def ordBig : Order := mkOrder "MSFT" 1500 "1"

/-- Order with the unrecognized side value of spec Scenario E. -/
def ordNine : Order := mkOrder "AAPL" 500 "9"

/-- An order already in the terminal state FILLED. -/
def ordFilled : Order :=
  { symbol := "AAPL", qty := 500, side := "1", state := OrderState.FILLED }

/-- Fill sequence used by the ledger-sum witness. -/
def fillsA : List Order :=
  [mkOrder "AAPL" 500 "1", mkOrder "GOOGL" 300 "1", mkOrder "AAPL" 600 "2"]

/-! ### Helper lemmas -/

/-- Both side classifications are the same two membership tests. -/
lemma sideSign_agree (s : String) : checkSideSign s = updateSideSign s := rfl

/-- Writing a symbol and reading it back yields the written value. -/
lemma ledgerGet_ledgerSet_self (l : Ledger) (s : String) (v : Int) :
    ledgerGet (ledgerSet l s v) s = v := by
  induction l with
  | nil => simp [ledgerSet, ledgerGet]
  | cons p rest ih =>
      obtain ⟨k, w⟩ := p
      by_cases h : k = s
      · simp [ledgerSet, ledgerGet, h]
      · simp [ledgerSet, ledgerGet, h, ih]

/-- Writing one symbol leaves every other symbol's value unchanged. -/
lemma ledgerGet_ledgerSet_ne (l : Ledger) (s t : String) (v : Int) (h : t ≠ s) :
    ledgerGet (ledgerSet l s v) t = ledgerGet l t := by
  have hst : ¬ s = t := fun hc => h hc.symm
  induction l with
  | nil => simp [ledgerSet, ledgerGet, hst]
  | cons p rest ih =>
      obtain ⟨k, w⟩ := p
      by_cases hk : k = s
      · subst hk
        simp [ledgerSet, ledgerGet, hst]
      · simp [ledgerSet, ledgerGet, hk, ih]

/-- Characterization of check: true exactly when the quantity is within
max_order_size, the side is recognized, and the hypothetical position is
within max_position in absolute value. -/
lemma check_eq_true_iff (r : RiskEngine) (o : Order) :
    r.check o = true ↔
      o.qty ≤ r.max_order_size ∧
      ∃ b, checkSideSign o.side = some b ∧
        |ledgerGet r.positions o.symbol + (if b then o.qty else -o.qty)| ≤ r.max_position := by
  unfold RiskEngine.check
  by_cases hq : o.qty > r.max_order_size
  · simp only [if_pos hq, Bool.false_eq_true, false_iff, not_and]
    intro hle
    exact absurd hq (not_lt.mpr hle)
  · cases hs : checkSideSign o.side with
    | none => simp [if_neg hq, hs]
    | some b =>
        by_cases habs :
            |ledgerGet r.positions o.symbol + (if b then o.qty else -o.qty)| > r.max_position
        · simp [if_neg hq, hs, habs, not_le.mpr habs]
        · simp [if_neg hq, hs, habs, not_lt.mp habs, not_lt.mp hq]

/-- On a recognized side, update_position succeeds and stores the current
position plus the signed quantity under the order's symbol. -/
lemma update_position_ok (r : RiskEngine) (o : Order) (b : Bool)
    (h : updateSideSign o.side = some b) :
    r.update_position o = Except.ok { r with positions := ledgerSet r.positions o.symbol (ledgerGet r.positions o.symbol + (if b then o.qty else -o.qty)) } := by
  simp [RiskEngine.update_position, h]

/-- On an unrecognized side, update_position raises InvalidSide. -/
lemma update_position_err (r : RiskEngine) (o : Order)
    (h : updateSideSign o.side = none) :
    r.update_position o = Except.error (RiskError.invalidSide o.side) := by
  simp [RiskEngine.update_position, h]

/-! ### Claim theorems -/

/-- C1: check(order) returns true iff the quantity is within
max_order_size, the side is a recognized BUY/SELL spelling, and the
absolute value of the current ledger position plus the signed quantity is
within max_position; in particular check returns false whenever the
quantity exceeds max_order_size, regardless of side or position. -/
theorem check_approval_iff (r : RiskEngine) (o : Order) :
    (r.check o = true ↔
      o.qty ≤ r.max_order_size ∧
      ∃ b, checkSideSign o.side = some b ∧
        |ledgerGet r.positions o.symbol + (if b then o.qty else -o.qty)| ≤ r.max_position) ∧
    (o.qty > r.max_order_size → r.check o = false) := by
  refine ⟨check_eq_true_iff r o, fun hq => ?_⟩
  cases hc : r.check o with
  | false => rfl
  | true =>
      obtain ⟨hle, -⟩ := (check_eq_true_iff r o).mp hc
      exact absurd hq (not_lt.mpr hle)

/-- Witness for C1 at a concrete input: an order of quantity 1500 against
max_order_size 1000 is rejected. -/
theorem check_approval_iff_witness :
    ordBig.qty > engA.max_order_size ∧ engA.check ordBig = false :=
  ⟨by decide, (check_approval_iff engA ordBig).2 (by decide)⟩

/-- C2: transition(order, target) succeeds and sets the state to the
target iff the target is in the allowed set for the current state;
otherwise it fails with an InvalidTransition error naming both states and
leaves the state unchanged, so any transition attempted from FILLED,
CANCELED or REJECTED always fails and leaves the state unchanged. -/
theorem transition_allowed_iff (o : Order) (t : OrderState) :
    (o.transition t = Except.ok { o with state := t } ↔ t ∈ allowedTargets o.state) ∧
    (t ∉ allowedTargets o.state →
      o.transition t = Except.error (OrderError.invalidTransition o.state t) ∧
      o.transitionOrKeep t = o) ∧
    ((o.state = OrderState.FILLED ∨ o.state = OrderState.CANCELED ∨
        o.state = OrderState.REJECTED) →
      o.transition t = Except.error (OrderError.invalidTransition o.state t) ∧
      o.transitionOrKeep t = o) := by
  by_cases h : t ∈ allowedTargets o.state
  · refine ⟨⟨fun _ => h, fun _ => by simp [Order.transition, h]⟩,
      fun hn => absurd h hn, fun hterm => ?_⟩
    rcases hterm with h1 | h1 | h1 <;> rw [h1] at h <;> simp [allowedTargets] at h
  · have herr : o.transition t = Except.error (OrderError.invalidTransition o.state t) := by
      simp [Order.transition, h]
    have hkeep : o.transitionOrKeep t = o := by
      simp [Order.transitionOrKeep, herr]
    refine ⟨⟨fun hok => ?_, fun hm => absurd hm h⟩, fun _ => ⟨herr, hkeep⟩,
      fun _ => ⟨herr, hkeep⟩⟩
    rw [herr] at hok
    exact absurd hok (by simp)

/-- Witness for C2 at a concrete input: from the terminal state FILLED,
a transition to ACKED fails with InvalidTransition and the state is kept. -/
theorem transition_allowed_iff_witness :
    OrderState.ACKED ∉ allowedTargets ordFilled.state ∧
    ordFilled.transition OrderState.ACKED =
      Except.error (OrderError.invalidTransition ordFilled.state OrderState.ACKED) ∧
    ordFilled.transitionOrKeep OrderState.ACKED = ordFilled :=
  ⟨by decide, (transition_allowed_iff ordFilled OrderState.ACKED).2.1 (by decide)⟩

/-- C8: every order is in state NEW immediately after construction, and a
transition into NEW fails from every state, so NEW is reachable only at
construction time. -/
theorem new_initial_and_unreachable :
    (∀ (sym : String) (q : Int) (sd : String), (mkOrder sym q sd).state = OrderState.NEW) ∧
    (∀ o : Order, o.transition OrderState.NEW =
      Except.error (OrderError.invalidTransition o.state OrderState.NEW)) := by
  refine ⟨fun _ _ _ => rfl, fun o => ?_⟩
  have h : OrderState.NEW ∉ allowedTargets o.state := by
    cases hs : o.state <;> decide
  simp [Order.transition, h]

/-- C10: order construction is total and performs no validation: for every
symbol, quantity and side (empty, zero, negative or unrecognized included)
the constructor yields an order holding exactly those values, in state NEW. -/
theorem mkOrder_total_no_validation (sym : String) (q : Int) (sd : String) :
    (mkOrder sym q sd).symbol = sym ∧ (mkOrder sym q sd).qty = q ∧
    (mkOrder sym q sd).side = sd ∧ (mkOrder sym q sd).state = OrderState.NEW :=
  ⟨rfl, rfl, rfl, rfl⟩

/-- C3: whenever check(order) returns true, the immediately following
update_position(order) succeeds and the resulting net position for the
order's symbol is within max_position in absolute value. -/
theorem check_then_update_within_limit (r : RiskEngine) (o : Order)
    (h : r.check o = true) :
    ∃ r2, r.update_position o = Except.ok r2 ∧
      |r2.get_position o.symbol| ≤ r.max_position := by
  obtain ⟨-, b, hb, habs⟩ := (check_eq_true_iff r o).mp h
  rw [sideSign_agree] at hb
  refine ⟨_, update_position_ok r o b hb, ?_⟩
  simpa [RiskEngine.get_position, ledgerGet_ledgerSet_self] using habs

/-- Witness for C3 at a concrete input: buy 500 AAPL on a fresh engine. -/
theorem check_then_update_witness :
    engA.check ordA = true ∧
    ∃ r2, engA.update_position ordA = Except.ok r2 ∧
      |r2.get_position ordA.symbol| ≤ engA.max_position :=
  ⟨by decide, check_then_update_within_limit engA ordA (by decide)⟩

/-- C5: a check call never mutates the position ledger: after any sequence
of check calls with no intervening update_position, the ledger value of
every symbol is what it was before the sequence. -/
theorem check_calls_preserve_ledger (r : RiskEngine) (orders : List Order) (sym : String) :
    (runChecks r orders).get_position sym = r.get_position sym := by
  induction orders generalizing r with
  | nil => rfl
  | cons o rest ih => simpa [runChecks, RiskEngine.checkCall] using ih r

/-- C6: on an unrecognized side value, check returns false (a rejection,
not an error) while update_position fails with an InvalidSide error, and
on that error the ledger is left unchanged. -/
theorem invalid_side_outcomes (r : RiskEngine) (o : Order)
    (h : checkSideSign o.side = none) :
    r.check o = false ∧
    r.update_position o = Except.error (RiskError.invalidSide o.side) ∧
    r.update_position_attempt o = r := by
  have hu : updateSideSign o.side = none := by rw [← sideSign_agree]; exact h
  have herr := update_position_err r o hu
  have hchk : r.check o = false := by
    unfold RiskEngine.check
    by_cases hq : o.qty > r.max_order_size
    · simp [hq]
    · simp [hq, h]
  exact ⟨hchk, herr, by simp [RiskEngine.update_position_attempt, herr]⟩

/-- Witness for C6 at the concrete side value 9 of spec Scenario E. -/
theorem invalid_side_outcomes_witness :
    checkSideSign ordNine.side = none ∧
    (engA.check ordNine = false ∧
     engA.update_position ordNine = Except.error (RiskError.invalidSide ordNine.side) ∧
     engA.update_position_attempt ordNine = engA) :=
  ⟨by decide, invalid_side_outcomes engA ordNine (by decide)⟩

/-- C9: check and update_position classify sides identically: exactly the
strings 1, BUY, Buy are buys, exactly 2, SELL, Sell are sells, every other
string (lowercase spellings included) is unrecognized by both; and on a
recognized side the position committed by update_position is exactly the
hypothetical that check evaluates, current ledger value plus signed
quantity. -/
theorem side_classification_agreement :
    (∀ s, checkSideSign s = updateSideSign s) ∧
    (∀ s, checkSideSign s = some true ↔ (s = "1" ∨ s = "BUY" ∨ s = "Buy")) ∧
    (∀ s, checkSideSign s = some false ↔ (s = "2" ∨ s = "SELL" ∨ s = "Sell")) ∧
    checkSideSign "buy" = none ∧ checkSideSign "sell" = none ∧
    (∀ (r : RiskEngine) (o : Order) (b : Bool), updateSideSign o.side = some b →
      ∃ r2, r.update_position o = Except.ok r2 ∧
        r2.get_position o.symbol =
          ledgerGet r.positions o.symbol + (if b then o.qty else -o.qty)) := by
  refine ⟨sideSign_agree, fun s => ?_, fun s => ?_, by decide, by decide,
    fun r o b hb => ⟨_, update_position_ok r o b hb,
      by simp [RiskEngine.get_position, ledgerGet_ledgerSet_self]⟩⟩
  · unfold checkSideSign
    by_cases h1 : s = "1" ∨ s = "BUY" ∨ s = "Buy"
    · simp [h1]
    · by_cases h2 : s = "2" ∨ s = "SELL" ∨ s = "Sell"
      · simp [h1, h2]
      · simp [h1, h2]
  · unfold checkSideSign
    by_cases h1 : s = "1" ∨ s = "BUY" ∨ s = "Buy"
    · have : ¬ (s = "2" ∨ s = "SELL" ∨ s = "Sell") := by
        rcases h1 with h | h | h <;> subst h <;> decide
      simp [h1, this]
    · by_cases h2 : s = "2" ∨ s = "SELL" ∨ s = "Sell"
      · simp [h1, h2]
      · simp [h1, h2]

/-- Witness for C9 at a concrete input: committing the buy-500 fill on the
fresh engine yields position 0 + 500 under AAPL. -/
theorem side_classification_agreement_witness :
    updateSideSign ordA.side = some true ∧
    ∃ r2, engA.update_position ordA = Except.ok r2 ∧
      r2.get_position ordA.symbol =
        ledgerGet engA.positions ordA.symbol + (if true then ordA.qty else -ordA.qty) :=
  ⟨by decide, side_classification_agreement.2.2.2.2.2 engA ordA true (by decide)⟩

/-- Applying a sequence of recognized-side fills adds, for each symbol,
the sum of the signed quantities of the fills carrying that symbol. -/
lemma applyFills_get_position (orders : List Order) (r : RiskEngine) (sym : String)
    (h : ∀ o ∈ orders, (updateSideSign o.side).isSome) :
    ∃ r2, applyFills r orders = Except.ok r2 ∧
      r2.get_position sym = r.get_position sym +
        ((orders.filter fun o => o.symbol == sym).map signedQty).sum := by
  induction orders generalizing r with
  | nil => exact ⟨r, rfl, by simp⟩
  | cons o rest ih =>
      obtain ⟨b, hb⟩ := Option.isSome_iff_exists.mp (h o (List.mem_cons_self o rest))
      have hupd := update_position_ok r o b hb
      obtain ⟨r2, hr2, hpos⟩ :=
        ih { r with positions := ledgerSet r.positions o.symbol (ledgerGet r.positions o.symbol + if b then o.qty else -o.qty) }
          (fun o2 ho2 => h o2 (List.mem_cons_of_mem o ho2))
      refine ⟨r2, by simp [applyFills, hupd, hr2], ?_⟩
      rw [hpos]
      have hsq : signedQty o = if b then o.qty else -o.qty := by
        cases b <;> simp [signedQty, hb]
      by_cases hsym : o.symbol = sym
      · subst hsym
        simp only [List.filter_cons, beq_self_eq_true, if_pos, List.map_cons, List.sum_cons,
          RiskEngine.get_position, ledgerGet_ledgerSet_self, hsq]
        omega
      · have hne : (o.symbol == sym) = false := beq_eq_false_iff_ne.mpr hsym
        simp only [List.filter_cons, hne, Bool.false_eq_true, if_neg, not_false_iff,
          RiskEngine.get_position,
          ledgerGet_ledgerSet_ne _ _ _ _ (fun hc => hsym hc.symm)]

/-- C4: starting from an empty ledger, after any sequence of
update_position calls on recognized-side orders, get_position(symbol)
equals the sum of the signed quantities (BUY positive, SELL negative) of
exactly the applied fills carrying that symbol, in call order; for a
symbol never seen the filtered sum is empty and the result is 0. -/
theorem positions_sum_of_fills (M P : Int) (orders : List Order) (sym : String)
    (h : ∀ o ∈ orders, (updateSideSign o.side).isSome) :
    ∃ r2, applyFills { max_order_size := M, max_position := P, positions := [] } orders =
        Except.ok r2 ∧
      r2.get_position sym = ((orders.filter fun o => o.symbol == sym).map signedQty).sum := by
  obtain ⟨r2, hr2, hpos⟩ :=
    applyFills_get_position orders
      { max_order_size := M, max_position := P, positions := [] } sym h
  exact ⟨r2, hr2, by simpa [RiskEngine.get_position, ledgerGet] using hpos⟩

/-- Witness for C4 on a concrete fill sequence: buy 500 AAPL, buy 300
GOOGL, sell 600 AAPL, observed at symbol AAPL. -/
theorem positions_sum_of_fills_witness :
    (∀ o ∈ fillsA, (updateSideSign o.side).isSome) ∧
    ∃ r2, applyFills { max_order_size := 1000, max_position := 2000, positions := [] } fillsA =
        Except.ok r2 ∧
      r2.get_position "AAPL" = ((fillsA.filter fun o => o.symbol == "AAPL").map signedQty).sum :=
  ⟨by decide, positions_sum_of_fills 1000 2000 fillsA "AAPL" (by decide)⟩

/-- Events delivered to the Logger sink (the event kinds of src/logger.py;
payload fields as built by the corresponding log_* methods). -/
inductive SinkEvent where
  | ORDER_CREATED (symbol : String) (qty : Int) (side : String) (state : OrderState)
  | STATE_CHANGE (symbol : String) (qty : Int) (side : String)
      (old_state new_state : OrderState)
  | RISK_APPROVED (symbol : String) (qty : Int) (side : String) (reason : Option String)
  | RISK_REJECTED (symbol : String) (qty : Int) (side : String) (reason : Option String)
  | POSITION_UPDATE (symbol : String) (old_position new_position : Int)
      (order_qty : Int) (order_side : String)
deriving DecidableEq, Repr

/-- Logger.log_risk_check (src/logger.py): builds one RISK_APPROVED or
RISK_REJECTED event from the order, the outcome and an optional reason.
No code in src/risk_engine.py invokes this method. -/
def log_risk_check (o : Order) (passed : Bool) (reason : Option String) : SinkEvent :=
  if passed then SinkEvent.RISK_APPROVED o.symbol o.qty o.side reason
  else SinkEvent.RISK_REJECTED o.symbol o.qty o.side reason

/-- RiskEngine.check together with the list of events it delivers to the
Logger sink.  Every path of the source either returns directly or first
calls `print` (console output only); the source constructs no Logger and
calls none of its log_* methods, so each return site contributes no sink
event.  The branch structure below mirrors the source exactly. -/
def RiskEngine.checkWithSink (r : RiskEngine) (o : Order) : Bool × List SinkEvent :=
  if o.qty > r.max_order_size then
    (false, [])
  else
    let current_position := ledgerGet r.positions o.symbol
    match checkSideSign o.side with
    | some isBuy =>
        let position_change := if isBuy then o.qty else -o.qty
        let new_position := current_position + position_change
        if |new_position| > r.max_position then (false, []) else (true, [])
    | none => (false, [])

/-- Counterexample for C7 at a concrete input: on the fresh default engine
the buy-500 order is approved, yet the call delivers no event at all to
the sink, in particular not the single RISK_APPROVED event the claim
requires. -/
theorem check_emits_no_event_cex :
    (engA.checkWithSink ordA).1 = true ∧
    (engA.checkWithSink ordA).2.length ≠ 1 ∧
    (engA.checkWithSink ordA).2 ≠ [log_risk_check ordA true none] := by
  decide

/-- C7 amended: a check call emits no event to the Logger sink on any
path (its outcome is reported only through console printing, and only on
rejection); the boolean outcome agrees with check. -/
theorem check_sink_silent (r : RiskEngine) (o : Order) :
    (r.checkWithSink o).2 = [] ∧ (r.checkWithSink o).1 = r.check o := by
  unfold RiskEngine.checkWithSink RiskEngine.check
  by_cases hq : o.qty > r.max_order_size
  · simp [hq]
  · cases hs : checkSideSign o.side with
    | none => simp [hq, hs]
    | some b =>
        by_cases habs :
            |ledgerGet r.positions o.symbol + (if b then o.qty else -o.qty)| > r.max_position
        · simp [hq, hs, habs]
        · simp [hq, hs, habs]

end TradingCore
